import Mathlib

/-!
Verification of the zen client library (Zenodo/InvenioRDM REST client).

The definitions below are a shallow embedding of the Python source:

* `Page`, `iter_pagination` embed `InvenioRDMClient.iter_pagination`
  (src/zen/invenioRDM.py, lines 316-338);
* the HTTP transport, error table and error-description parsing embed
  `_HTTPRequest` and `InvenioRDMError` (src/zen/invenioRDM.py) and the
  textually identical `_APIRequest`/`APIResponseError` (src/zen/api.py);
* `Depositions.list` embeds the listing loop of src/zen/api.py, lines 325-366;
* `PagedData` embeds `_PagedData` (src/zen/api.py, lines 414-475);
* `upload_file` embeds `Draft.upload_file` (src/zen/record.py, lines 372-418)
  as an event-trace semantics;
* `load_draft` / `load_or_create_draft` embed src/zen/draft.py, lines 64-91;
* the two `update` bodies embed `Draft.update` of src/zen/draft.py
  (lines 233-254) and of src/zen/record.py (lines 303-317).

HTTP itself is the external collaborator of the spec: a response (or a page
of results) is passed in as a function parameter, and the embedding records
which calls the code under verification makes.
-/

namespace Zen

/-! ### Pagination (src/zen/invenioRDM.py, `InvenioRDMClient.iter_pagination`)

A page of results.  In the JSON the items sit under `hits.hits`, the server
total under `hits.total` and the pointer to the next page under `links.next`;
`next = none` models both a missing `links` entry and a `links` entry without
`next` (the loop guard `'links' in page and 'next' in page['links']` is false
in either case).  URLs are kept abstract in the type `υ`. -/
structure Page (α υ : Type) where
  items : List α
  total : Nat
  next : Option υ
deriving Repr, DecidableEq

/-- The third conjunct of the loop guard: `limit is None or i < limit`. -/
def limitOk (limit : Option Nat) (i : Nat) : Bool :=
  match limit with
  | none => true
  | some l => i < l

/-- The `while` loop of `iter_pagination`: as long as the current page has a
next link and the limit is not reached, GET the next URL, yield the returned
page and increment the counter.  The result pairs the list of yielded pages
with the list of URLs requested.  `fuel` bounds the unrolling of the `while`
loop (the Python generator may walk an unbounded chain). -/
def iterPaginationLoop (fetch : υ → Page α υ) (page : Page α υ)
    (limit : Option Nat) (i : Nat) : Nat → List (Page α υ) × List υ
  | 0 => ([], [])
  | fuel + 1 =>
    match page.next with
    | none => ([], [])
    | some url =>
      if limitOk limit i then
        let p := fetch url
        let r := iterPaginationLoop fetch p limit (i + 1) fuel
        (p :: r.1, url :: r.2)
      else ([], [])

/-- `InvenioRDMClient.iter_pagination`: first yield the given page, then run
the next-link loop with the visited-pages counter starting at 0. -/
def iter_pagination (fetch : υ → Page α υ) (data : Page α υ)
    (limit : Option Nat) (fuel : Nat) : List (Page α υ) × List υ :=
  let r := iterPaginationLoop fetch data limit 0 fuel
  (data :: r.1, r.2)

/-- Helper: the loop stops at once when the page counter has reached the limit. -/
theorem iterPaginationLoop_limit_reached (fetch : υ → Page α υ) (page : Page α υ)
    (l i fuel : Nat) (h : l ≤ i) :
    iterPaginationLoop fetch page (some l) i fuel = ([], []) := by
  cases fuel with
  | zero => rfl
  | succ f =>
    cases hp : page.next with
    | none => simp [iterPaginationLoop, hp]
    | some u => simp [iterPaginationLoop, hp, limitOk, Nat.not_lt.mpr h]

section Chain

variable {α : Type}

/-- Helper: running the loop from the `j`-th page of an `N`-page chain (pages
numbered `1..N`, page `t < N` linking to `t+1`, page `N` with no next link)
yields pages `j+1 .. N` and requests exactly their URLs, with no limit. -/
theorem iterPaginationLoop_chain (pg : Nat → Page α Nat) (N : Nat)
    (hchain : ∀ t, 1 ≤ t → t < N → (pg t).next = some (t + 1))
    (hlast : (pg N).next = none) :
    ∀ fuel j i, 1 ≤ j → j ≤ N → N - j ≤ fuel →
      iterPaginationLoop (fun u => pg u) (pg j) none i fuel
        = ((List.range' (j + 1) (N - j)).map pg, List.range' (j + 1) (N - j)) := by
  intro fuel
  induction fuel with
  | zero =>
    intro j i h1 h2 hf
    have hj : j = N := by omega
    subst hj
    simp only [Nat.sub_self, List.range'_zero, List.map_nil]
    rfl
  | succ f ih =>
    intro j i h1 h2 hf
    rcases Nat.lt_or_ge j N with hlt | hge
    · have hnext := hchain j h1 hlt
      have hrec := ih (j + 1) (i + 1) (by omega) (by omega) (by omega)
      have hNj : N - j = (N - (j + 1)) + 1 := by omega
      simp only [iterPaginationLoop, hnext, limitOk, if_pos rfl]
      rw [hrec, hNj, List.range'_succ]
      simp
    · have hj : j = N := by omega
      subst hj
      simp [iterPaginationLoop, hlast, Nat.sub_self]

/-- Helper: with limit `k`, the number of pages yielded by the loop from the
`j`-th chain page with counter `i` is `min (N - j) (k - i)`. -/
theorem iterPaginationLoop_chain_limit (pg : Nat → Page α Nat) (N : Nat)
    (hchain : ∀ t, 1 ≤ t → t < N → (pg t).next = some (t + 1))
    (hlast : (pg N).next = none) (k : Nat) :
    ∀ fuel j i, 1 ≤ j → j ≤ N → N - j ≤ fuel →
      (iterPaginationLoop (fun u => pg u) (pg j) (some k) i fuel).1.length
        = min (N - j) (k - i) := by
  intro fuel
  induction fuel with
  | zero =>
    intro j i h1 h2 hf
    have hj : j = N := by omega
    subst hj
    simp only [Nat.sub_self, Nat.zero_min]
    rfl
  | succ f ih =>
    intro j i h1 h2 hf
    rcases Nat.lt_or_ge j N with hlt | hge
    · have hnext := hchain j h1 hlt
      rcases Nat.lt_or_ge i k with hik | hik
      · have hrec := ih (j + 1) (i + 1) (by omega) (by omega) (by omega)
        simp only [iterPaginationLoop, hnext, limitOk, decide_eq_true_eq, if_pos hik]
        simp only [List.length_cons, hrec]
        omega
      · rw [iterPaginationLoop_limit_reached (fun u => pg u) (pg j) k i (f + 1) hik]
        simp
        omega
    · have hj : j = N := by omega
      subst hj
      simp [iterPaginationLoop, hlast, Nat.sub_self]

/-- C3.  Given a chain of `N` pages in which pages `1..N-1` carry a
`links.next` pointer (page `t` pointing to page `t+1`) and page `N` does not,
`iter_pagination` with no limit yields exactly the `N` chain pages in order
and performs exactly one GET per page after the first, each to the previous
page's `links.next` URL (the request list is `[2, …, N]`, and by the chain
hypothesis the URL requested before yielding page `t+1` is exactly
`(pg t).next`); with `limit = k < N` it yields exactly `k + 1` pages. -/
theorem iter_pagination_chain (pg : Nat → Page α Nat) (N : Nat) (hN : 1 ≤ N)
    (hchain : ∀ t, 1 ≤ t → t < N → (pg t).next = some (t + 1))
    (hlast : (pg N).next = none) (fuel : Nat) (hfuel : N - 1 ≤ fuel)
    (k : Nat) (hk : k < N) :
    iter_pagination (fun u => pg u) (pg 1) none fuel
      = ((List.range' 1 N).map pg, List.range' 2 (N - 1)) ∧
    (iter_pagination (fun u => pg u) (pg 1) (some k) fuel).1.length = k + 1 := by
  obtain ⟨m, rfl⟩ : ∃ m, N = m + 1 := ⟨N - 1, by omega⟩
  have hm : m + 1 - 1 = m := by omega
  constructor
  · have h := iterPaginationLoop_chain pg (m + 1) hchain hlast fuel 1 0
      (by omega) (by omega) (by omega)
    unfold iter_pagination
    rw [h]
    show (pg 1 :: List.map pg (List.range' (1 + 1) (m + 1 - 1)),
        List.range' (1 + 1) (m + 1 - 1))
      = (List.map pg (List.range' 1 (m + 1)), List.range' 2 (m + 1 - 1))
    rw [hm, List.range'_succ]
    norm_num
  · have h := iterPaginationLoop_chain_limit pg (m + 1) hchain hlast k fuel 1 0
      (by omega) (by omega) (by omega)
    unfold iter_pagination
    simp only [List.length_cons, h]
    omega

end Chain

/-- Concrete 3-page chain used to instantiate `iter_pagination_chain`. -/
def chainPg (t : Nat) : Page Nat Nat :=
  { items := [t], total := 3, next := if t < 3 then some (t + 1) else none }

/-- Witness for C3: the 3-page chain with `fuel = 2` and `limit = 1`. -/
theorem iter_pagination_chain_witness :
    iter_pagination (fun u => chainPg u) (chainPg 1) none 2
      = ((List.range' 1 3).map chainPg, List.range' 2 2) ∧
    (iter_pagination (fun u => chainPg u) (chainPg 1) (some 1) 2).1.length = 1 + 1 :=
  iter_pagination_chain chainPg 3 (by decide)
    (by
      intro t h1 h2
      simp [chainPg, h2])
    (by decide) 2 (by decide) 1 (by decide)

/-! ### Error table and error-body parsing
(src/zen/invenioRDM.py `InvenioRDMError`, lines 61-131; src/zen/api.py
`APIResponseError`, lines 65-135 — the two classes are textually identical). -/

/-- The `bad_status_codes` dict: status code ↦ (name, fallback description).
`none` models a `KeyError` on a code outside the table. -/
def bad_status_codes (code : Nat) : Option (String × String) :=
  match code with
  | 400 => some ("Bad Request", "Request failed.")
  | 401 => some ("Unauthorized", "Request failed, due to an invalid access token.")
  | 403 => some ("Forbidden",
      "Request failed, due to missing authorization (e.g. deleting an already " ++
      "submitted upload or missing scopes for your access token).")
  | 404 => some ("Not Found", "Request failed, due to the resource not being found.")
  | 405 => some ("Method Not Allowed", "Request failed, due to unsupported HTTP method.")
  | 409 => some ("Conflict",
      "Request failed, due to the current state of the resource (e.g. edit " ++
      "a deposition which is not fully integrated).")
  | 415 => some ("Unsupported Media Type",
      "Request failed, due to missing or invalid request header Content-Type.")
  | 422 => some ("Unprocessable Entity", "Resumption tokens are only valid for 2 minutes.")
  | 429 => some ("Too Many Requests", "Request failed, due to rate limiting.")
  | 500 => some ("Internal Server Error", "Request failed, due to an internal server error.")
  | _ => none

/-- The set of keys of `bad_status_codes`, as listed in the spec. -/
def badStatusList : List Nat := [400, 401, 403, 404, 405, 409, 415, 422, 429, 500]

theorem bad_status_codes_isSome_iff (c : Nat) :
    (bad_status_codes c).isSome ↔ c ∈ badStatusList := by
  unfold bad_status_codes
  split <;> simp_all [badStatusList]

/-- One entry of the `errors` array of an error body.  The fields are
optional: a missing `field`/`message` key raises `KeyError` in the source. -/
structure ErrorsEntry where
  field : Option String
  message : Option String
deriving Repr, DecidableEq

/-- A parsed JSON error body.  `message = none` models a body without a
usable `message` entry (missing key, or a non-dict body); a missing `errors`
key is modelled as the empty list (both raise inside the inner `try`). -/
structure ErrorBody where
  message : Option String
  errors : List ErrorsEntry
deriving Repr, DecidableEq

/-- `InvenioRDMError.get_response_description` (and the identical
`APIResponseError.get_response_description`): try to read `message` from the
parsed body, then try to format `errors[0]`; on the outer failure fall back
to the static table (whose lookup itself is a `KeyError`, i.e. `none`, for a
code outside the table).  `body = none` models a response whose `.json()`
raises. -/
def get_response_description (statusCode : Nat) (body : Option ErrorBody) :
    Option String :=
  match body with
  | none => (bad_status_codes statusCode).map (·.2)
  | some content =>
    match content.message with
    | none => (bad_status_codes statusCode).map (·.2)
    | some message =>
      match content.errors with
      | [] => some message
      | e :: _ =>
        match e.field, e.message with
        | some f, some em =>
            some (message ++ " Field \x27" ++ f ++ "\x27. " ++ em)
        | _, _ => some message

/-- C7.  For every status code in the bad-status set: an unparseable body or
a body without `message` gives the static fallback description (and the
table lookup succeeds); a body with `message` m and a first `errors` entry
carrying both `field` f and `message` e gives `m Field 'f'. e`; a body with
`message` m and no usable first `errors` entry (no entries at all, or a first
entry missing `field` or `message`) gives m. -/
theorem error_description_cases (c : Nat) (hc : c ∈ badStatusList) :
    (∀ body : Option ErrorBody,
        (body = none ∨ ∃ cb, body = some cb ∧ cb.message = none) →
        get_response_description c body = (bad_status_codes c).map (·.2) ∧
        (bad_status_codes c).isSome) ∧
    (∀ (m f e : String) (entry : ErrorsEntry) (rest : List ErrorsEntry),
        entry.field = some f → entry.message = some e →
        get_response_description c (some ⟨some m, entry :: rest⟩)
          = some (m ++ " Field \x27" ++ f ++ "\x27. " ++ e)) ∧
    (∀ m : String, get_response_description c (some ⟨some m, []⟩) = some m) ∧
    (∀ (m : String) (entry : ErrorsEntry) (rest : List ErrorsEntry),
        entry.field = none ∨ entry.message = none →
        get_response_description c (some ⟨some m, entry :: rest⟩) = some m) := by
  refine ⟨?_, ?_, ?_, ?_⟩
  · rintro body (rfl | ⟨cb, rfl, hm⟩)
    · exact ⟨rfl, (bad_status_codes_isSome_iff c).mpr hc⟩
    · exact ⟨by simp [get_response_description, hm],
        (bad_status_codes_isSome_iff c).mpr hc⟩
  · intro m f e entry rest hf he
    simp [get_response_description, hf, he]
  · intro m
    rfl
  · rintro m entry rest (hf | he)
    · simp [get_response_description, hf]
    · cases hf : entry.field <;> simp [get_response_description, hf, he]

/-- Witness for C7: the three description shapes at status 422. -/
theorem error_description_cases_witness :
    get_response_description 422 none
      = some "Resumption tokens are only valid for 2 minutes." ∧
    get_response_description 422
        (some ⟨some "Validation error.",
          [⟨some "metadata.title", some "Missing data."⟩]⟩)
      = some "Validation error. Field \x27metadata.title\x27. Missing data." ∧
    get_response_description 422 (some ⟨some "Validation error.", []⟩)
      = some "Validation error." := by
  have h := error_description_cases 422 (by decide)
  refine ⟨?_, ?_, h.2.2.1 "Validation error."⟩
  · exact ((h.1 none (Or.inl rfl)).1).trans rfl
  · exact h.2.1 "Validation error." "metadata.title" "Missing data."
      ⟨some "metadata.title", some "Missing data."⟩ [] rfl rfl

/-! ### HTTP transport (src/zen/invenioRDM.py `_HTTPRequest`, lines 134-209;
src/zen/api.py `_APIRequest.get/post/put/delete`, lines 201-279).

The actual network exchange is the external collaborator: a method receives
the response the server produced and decides whether to raise. -/

/-- A server response: its status code and its parsed JSON body
(`none` when `.json()` would raise). -/
structure HttpResponse where
  status : Nat
  body : Option ErrorBody
deriving Repr, DecidableEq

/-- `InvenioRDMError.__init__`: records the status code, the name from the
static table and the best-effort description. -/
structure InvenioRDMError where
  status_code : Nat
  name : Option String
  description : Option String
deriving Repr, DecidableEq

def mkInvenioRDMError (r : HttpResponse) : InvenioRDMError :=
  { status_code := r.status
    name := (bad_status_codes r.status).map (·.1)
    description := get_response_description r.status r.body }

/-- The shared tail of `_HTTPRequest.get/post/put/delete`: raise a typed
error when the status code is a key of `bad_status_codes`, otherwise return
the response unchanged. -/
def checkResponse (r : HttpResponse) : Except InvenioRDMError HttpResponse :=
  if (bad_status_codes r.status).isSome then .error (mkInvenioRDMError r) else .ok r

def http_get (r : HttpResponse) : Except InvenioRDMError HttpResponse := checkResponse r

def http_post (r : HttpResponse) : Except InvenioRDMError HttpResponse := checkResponse r

def http_put (r : HttpResponse) : Except InvenioRDMError HttpResponse := checkResponse r

def http_delete (r : HttpResponse) : Except InvenioRDMError HttpResponse := checkResponse r

/-- C9.  Each transport method returns the response unchanged exactly when
the status code is outside {400,401,403,404,405,409,415,422,429,500}
(so e.g. 502 or 503 pass through), raises exactly when the status is in that
set, and in the raising case the static-table lookup performed by the error
constructor succeeds. -/
theorem transport_raises_iff_bad_status (r : HttpResponse) :
    (http_get r = .ok r ↔ r.status ∉ badStatusList) ∧
    (http_post r = .ok r ↔ r.status ∉ badStatusList) ∧
    (http_put r = .ok r ↔ r.status ∉ badStatusList) ∧
    (http_delete r = .ok r ↔ r.status ∉ badStatusList) ∧
    (r.status ∈ badStatusList →
      http_get r = .error (mkInvenioRDMError r) ∧
      (mkInvenioRDMError r).name.isSome) := by
  have hiff := bad_status_codes_isSome_iff r.status
  have hcheck : (checkResponse r = .ok r ↔ r.status ∉ badStatusList) := by
    unfold checkResponse
    rcases hs : (bad_status_codes r.status).isSome with _ | _
    · simp only [hs, Bool.false_eq_true, if_false]
      simp [← hiff, hs]
    · simp only [hs, if_true]
      simp [← hiff, hs]
  refine ⟨hcheck, hcheck, hcheck, hcheck, fun hmem => ⟨?_, ?_⟩⟩
  · unfold http_get checkResponse
    rw [if_pos (hiff.mpr hmem)]
  · have hs := hiff.mpr hmem
    simp only [mkInvenioRDMError]
    cases hbs : bad_status_codes r.status with
    | none => rw [hbs] at hs; simp at hs
    | some v => simp [hbs]

/-- Witness for C9: a 502 response passes through unchanged; a 500 response
raises an error whose name lookup succeeds. -/
theorem transport_raises_iff_bad_status_witness :
    http_get ⟨502, none⟩ = .ok ⟨502, none⟩ ∧
    http_get ⟨500, none⟩ = .error (mkInvenioRDMError ⟨500, none⟩) ∧
    (mkInvenioRDMError ⟨500, none⟩).name.isSome := by
  have h502 := transport_raises_iff_bad_status ⟨502, none⟩
  have h500 := (transport_raises_iff_bad_status ⟨500, none⟩).2.2.2.2 (by decide)
  exact ⟨h502.1.mpr (by decide), h500.1, h500.2⟩

/-! ### Deposition listing (src/zen/api.py `Depositions.list`, lines 325-366)

`list_depositions` (src/zen/invenioRDM.py, lines 340-359) GETs
`/api/deposit/depositions` with the query parameters and returns the parsed
JSON — for this endpoint a JSON array of deposition objects.  The server is
modelled as a function from the `page` query parameter to that array; the
first request carries no `page` parameter, which the server treats as
page 1.  Each application of the server function is one HTTP request. -/

def status_options : List String := ["draft", "published"]

def sort_options : List String := ["bestmatch", "-bestmatch", "mostrecent", "-mostrecent"]

/-- `status is None or status in options` (the guard that does not raise). -/
def validOption (v : Option String) (opts : List String) : Bool :=
  match v with
  | none => true
  | some s => opts.contains s

/-- A deposition object as returned to the caller:
`__dataset__.Deposition(self._api, item)`.  The `Deposition` class lives in
the missing module zen/dataset.py; modelled from the spec (§3: entities are
thin views over a JSON object), it wraps one item. -/
structure Deposition (α : Type) where
  item : α
deriving Repr, DecidableEq

/-- The `while len(page_results) > 0` loop of `Depositions.list`, entered
with the results of the previous request in hand: extend `items`, bump the
`page` parameter, request again.  Returns the number of requests made inside
the loop and, if the loop ended within `fuel` iterations, the accumulated
items (`none` models a run that has not terminated yet). -/
def depositionsListLoop (server : Nat → List α) (pageResults : List α)
    (nextPage : Nat) : Nat → Nat × Option (List α)
  | 0 => (0, none)
  | fuel + 1 =>
    if pageResults.isEmpty then (0, some [])
    else
      let r := depositionsListLoop server (server nextPage) (nextPage + 1) fuel
      (r.1 + 1, r.2.map (fun items => pageResults ++ items))

inductive ListOutcome (α : Type)
  | ok (items : List (Deposition α))
  | invalidStatus
  | invalidSort
  | diverged
deriving Repr, DecidableEq

/-- `Depositions.list`: validate `status` and `sort` against the allow-lists
(raising before any request), then fetch the first page and run the
accumulation loop; every item is wrapped in a `Deposition`.  The first
component counts the HTTP requests made. -/
def Depositions_list (status sort : Option String) (server : Nat → List α)
    (fuel : Nat) : Nat × ListOutcome α :=
  if validOption status status_options = false then (0, .invalidStatus)
  else if validOption sort sort_options = false then (0, .invalidSort)
  else
    let g := depositionsListLoop server (server 1) 2 fuel
    (g.1 + 1,
      match g.2 with
      | none => .diverged
      | some items => .ok (items.map Deposition.mk))

/-- Modelled from the spec: §4.2 says the listing "internally drives the
Pagination Iterator starting from page 1, accumulating every page's items
into one ordered sequence" — i.e. the result is the concatenation of the
items of the pages yielded by `iter_pagination` (§4.1) on the first page. -/
def listViaPaginationIterator (fetch : υ → Page α υ) (firstPage : Page α υ)
    (fuel : Nat) : List α :=
  (((iter_pagination fetch firstPage none fuel).1).map Page.items).flatten

/-- Helper: if pages `j .. j+n-1` are nonempty and page `j+n` is empty, the
loop entered with page `j`'s results makes `n` further requests and gathers
pages `j .. j+n-1` in order. -/
theorem depositionsListLoop_gathers (server : Nat → List α) :
    ∀ (n j fuel : Nat), (∀ t, j ≤ t → t < j + n → server t ≠ []) →
      server (j + n) = [] → n + 1 ≤ fuel →
      depositionsListLoop server (server j) (j + 1) fuel
        = (n, some (((List.range' j n).map server).flatten)) := by
  intro n
  induction n with
  | zero =>
    intro j fuel hne hemp hfuel
    obtain ⟨f, rfl⟩ : ∃ f, fuel = f + 1 := ⟨fuel - 1, by omega⟩
    have hj : server j = [] := by simpa using hemp
    simp [depositionsListLoop, hj]
  | succ n ih =>
    intro j fuel hne hemp hfuel
    obtain ⟨f, rfl⟩ : ∃ f, fuel = f + 1 := ⟨fuel - 1, by omega⟩
    have hj : ¬(server j).isEmpty := by
      have := hne j (Nat.le_refl j) (by omega)
      simpa [List.isEmpty_iff] using this
    have hrec := ih (j + 1) f (fun t ht1 ht2 => hne t (by omega) (by omega))
      (by rw [show j + 1 + n = j + (n + 1) by omega]; exact hemp) (by omega)
    simp only [depositionsListLoop, hj, if_false, hrec, List.range'_succ]
    simp

/-- C4 (amended).  `Depositions.list` pages by re-requesting the listing
endpoint with an incremented `page` parameter starting from page 1 and stops
at the first empty page: when pages `1..k` are nonempty and page `k+1` is
empty it makes exactly `k+1` requests and returns the items of pages `1..k`
flattened in page order, each wrapped in a `Deposition`; `k = 0` (empty
first page) yields the empty list, not an error. -/
theorem depositions_list_flattened (status sort : Option String)
    (hstatus : validOption status status_options = true)
    (hsort : validOption sort sort_options = true)
    (server : Nat → List α) (k fuel : Nat)
    (hne : ∀ j, 1 ≤ j → j ≤ k → server j ≠ [])
    (hemp : server (k + 1) = []) (hfuel : k + 1 ≤ fuel) :
    Depositions_list status sort server fuel
      = (k + 1, .ok ((((List.range' 1 k).map server).flatten).map Deposition.mk)) := by
  have hloop := depositionsListLoop_gathers server k 1 fuel
    (fun t ht1 ht2 => hne t ht1 (by omega)) (by simpa [Nat.add_comm] using hemp) hfuel
  unfold Depositions_list
  rw [hstatus, hsort]
  simp only [Bool.true_eq_false, if_false, hloop]

/-- The concrete 3-3-2 server of the spec's "flattened listing" property:
pages 1..3 hold items 1-3, 4-6, 7-8; page 4 and beyond are empty. -/
def server332 : Nat → List Nat
  | 1 => [1, 2, 3]
  | 2 => [4, 5, 6]
  | 3 => [7, 8]
  | _ => []

/-- Witness for C4's amended theorem: the 3-3-2 instance returns exactly the
8 items in page order (4 requests), and an empty first page returns the
empty list (1 request). -/
theorem depositions_list_flattened_witness :
    Depositions_list none none server332 5
      = (4, .ok ([1, 2, 3, 4, 5, 6, 7, 8].map Deposition.mk)) ∧
    Depositions_list none none (fun _ => ([] : List Nat)) 5
      = (1, .ok []) := by
  constructor
  · have h := depositions_list_flattened none none rfl rfl server332 3 5
      (by decide) (by decide) (by decide)
    simpa using h
  · have h := depositions_list_flattened none none rfl rfl
      (fun _ => ([] : List Nat)) 0 5 (by omega) rfl (by omega)
    simpa using h

/-- The page-number-indexed server of the counterexample: page 1 has three
items, page 2 has two more, page 3 is empty.  A JSON array has no `links`
entry, so the `Page` view of the first response carries no next link. -/
def cxServer : Nat → List Nat
  | 1 => [1, 2, 3]
  | 2 => [4, 5]
  | _ => []

/-- Counterexample for C4 as stated: on `cxServer`, `Depositions.list`
returns the items of pages 1 and 2 (it keeps re-requesting with an
incremented `page` parameter until an empty page), while driving the
Pagination Iterator from page 1 — whose response, a JSON array, has no
`links.next` — yields that single page, so the iterator-driven concatenation
stops at 3 items.  The two results differ, refuting the claim that the
listing is the concatenation of the pages the Pagination Iterator yields. -/
theorem depositions_list_not_iterator_driven :
    (Depositions_list none none cxServer 10).2
      = .ok ([1, 2, 3, 4, 5].map Deposition.mk) ∧
    listViaPaginationIterator (fun _ : Nat => (⟨[], 0, none⟩ : Page Nat Nat))
      ⟨cxServer 1, 5, none⟩ 10 = [1, 2, 3] ∧
    [1, 2, 3, 4, 5].map (Deposition.mk (α := Nat)) ≠ [1, 2, 3].map Deposition.mk := by
  refine ⟨by decide, by decide, by decide⟩

/-! ### File upload workflow (src/zen/record.py `Draft.upload_file`, lines 372-418)

The workflow is embedded as an event-trace semantics: each server
interaction or file-system effect the method performs is recorded as an
event, and the outside world's behaviour is a parameter.  The upload PUT and
the commit POST are the only fallible steps (the claims' mocks make exactly
those fail); slot creation, refresh, slot deletion, the remote download and
the temp-file removal are taken to succeed. -/

inductive UploadEvent
  | createSlot
  | downloadTemp
  | uploadPut (attempt : Nat)
  | commitPost (attempt : Nat)
  | sleepRetry (attempt : Nat)
  | refreshFiles
  | deleteSlot
  | removeTemp
deriving Repr, DecidableEq

inductive UploadOutcome
  | ok
  | valueError
  | maxRetriesExceeded
deriving Repr, DecidableEq

/-- The two validation facts about the `filename` argument:
`os.path.isfile(filename)` and `filename.startswith(('http://', 'https://'))`. -/
structure FileSource where
  isLocalFile : Bool
  isRemoteUrl : Bool
deriving Repr, DecidableEq

/-- Whether the upload+commit pair succeeds on a given attempt:
`file.upload` raises unless `uploadOk`, then `file.commit` raises unless
`commitOk`. -/
def attemptSuccess (uploadOk commitOk : Nat → Bool) (n : Nat) : Bool :=
  uploadOk n && commitOk n

/-- The events of one attempt: the PUT always happens; the commit POST is
only reached when the PUT did not raise. -/
def attemptEvents (uploadOk commitOk : Nat → Bool) (n : Nat) : List UploadEvent :=
  if uploadOk n then [.uploadPut n, .commitPost n] else [.uploadPut n]

/-- The `while not uploaded` retry loop, starting at attempt `retries`:
on success exit with `true`; on failure raise (`false`) once
`retries >= max_retries`, otherwise sleep and retry with `retries + 1`. -/
def uploadLoop (uploadOk commitOk : Nat → Bool) (maxRetries retries : Nat) :
    List UploadEvent × Bool :=
  let ev := attemptEvents uploadOk commitOk retries
  if attemptSuccess uploadOk commitOk retries then (ev, true)
  else if maxRetries ≤ retries then (ev, false)
  else
    let r := uploadLoop uploadOk commitOk maxRetries (retries + 1)
    (ev ++ [.sleepRetry retries] ++ r.1, r.2)
termination_by maxRetries - retries
decreasing_by omega

/-- `Draft.upload_file`: validate the source, create the file slot, download
a remote source to a temp file, run the retry loop from attempt 1, and in
the `finally` block refresh the file listing on success or delete the slot
on failure, then remove the temp file if one was created. -/
def upload_file (source : FileSource) (uploadOk commitOk : Nat → Bool)
    (maxRetries : Nat) : List UploadEvent × UploadOutcome :=
  if !source.isLocalFile && !source.isRemoteUrl then ([], .valueError)
  else
    let pre := [.createSlot] ++ (if source.isRemoteUrl then [.downloadTemp] else [])
    let r := uploadLoop uploadOk commitOk maxRetries 1
    let cleanup := (if r.2 then [.refreshFiles] else [.deleteSlot]) ++
      (if source.isRemoteUrl then [.removeTemp] else [])
    (pre ++ r.1 ++ cleanup, if r.2 then .ok else .maxRetriesExceeded)

/-- An upload+commit attempt pair is counted by its PUT. -/
def isUploadAttempt : UploadEvent → Bool
  | .uploadPut _ => true
  | _ => false

theorem attemptEvents_countP_attempt (uploadOk commitOk : Nat → Bool) (n : Nat) :
    (attemptEvents uploadOk commitOk n).countP isUploadAttempt = 1 := by
  unfold attemptEvents
  cases h : uploadOk n <;> simp [List.countP_cons, isUploadAttempt]

theorem attemptEvents_count_refresh (uploadOk commitOk : Nat → Bool) (n : Nat) :
    (attemptEvents uploadOk commitOk n).count .refreshFiles = 0 := by
  unfold attemptEvents
  cases h : uploadOk n <;> simp

theorem attemptEvents_count_delete (uploadOk commitOk : Nat → Bool) (n : Nat) :
    (attemptEvents uploadOk commitOk n).count .deleteSlot = 0 := by
  unfold attemptEvents
  cases h : uploadOk n <;> simp

theorem attemptEvents_count_removeTemp (uploadOk commitOk : Nat → Bool) (n : Nat) :
    (attemptEvents uploadOk commitOk n).count .removeTemp = 0 := by
  unfold attemptEvents
  cases h : uploadOk n <;> simp

/-- Helper: whatever the attempt results, the retry loop itself never
refreshes the listing, deletes the slot or removes the temp file (those
effects belong to the `finally` block). -/
theorem uploadLoop_count_cleanup (uploadOk commitOk : Nat → Bool) (m : Nat) :
    ∀ k r, m - r ≤ k →
      ((uploadLoop uploadOk commitOk m r).1.count .deleteSlot = 0 ∧
       (uploadLoop uploadOk commitOk m r).1.count .removeTemp = 0 ∧
       (uploadLoop uploadOk commitOk m r).1.count .refreshFiles = 0) := by
  intro k
  induction k with
  | zero =>
    intro r hr
    have hmr : m ≤ r := by omega
    unfold uploadLoop
    rcases hs : attemptSuccess uploadOk commitOk r with _ | _ <;>
      simp [hs, hmr, attemptEvents_count_refresh, attemptEvents_count_delete,
        attemptEvents_count_removeTemp]
  | succ k ih =>
    intro r hr
    unfold uploadLoop
    rcases hs : attemptSuccess uploadOk commitOk r with _ | _
    · rcases hmr : decide (m ≤ r) with _ | _
      · have hmr' : ¬ m ≤ r := by simpa using hmr
        have hrec := ih (r + 1) (by omega)
        simp [hs, hmr', List.count_append, List.count_cons,
          attemptEvents_count_refresh, attemptEvents_count_delete,
          attemptEvents_count_removeTemp, hrec.1, hrec.2.1, hrec.2.2]
      · have hmr' : m ≤ r := by simpa using hmr
        simp [hs, hmr', attemptEvents_count_refresh, attemptEvents_count_delete,
          attemptEvents_count_removeTemp]
    · simp [hs, attemptEvents_count_refresh, attemptEvents_count_delete,
        attemptEvents_count_removeTemp]

/-- Helper: when every attempt pair fails, the loop started at attempt `r`
exits by raising after exactly `m - r + 1` attempts. -/
theorem uploadLoop_allFail (uploadOk commitOk : Nat → Bool) (m : Nat)
    (hfail : ∀ n, attemptSuccess uploadOk commitOk n = false) :
    ∀ k r, m - r ≤ k →
      ((uploadLoop uploadOk commitOk m r).2 = false ∧
       (uploadLoop uploadOk commitOk m r).1.countP isUploadAttempt = m - r + 1) := by
  intro k
  induction k with
  | zero =>
    intro r hr
    have hmr : m ≤ r := by omega
    have hsub : m - r + 1 = 1 := by omega
    unfold uploadLoop
    simp [hfail r, hmr, attemptEvents_countP_attempt, hsub]
  | succ k ih =>
    intro r hr
    unfold uploadLoop
    rcases hmr : decide (m ≤ r) with _ | _
    · have hmr' : ¬ m ≤ r := by simpa using hmr
      have hrec := ih (r + 1) (by omega)
      constructor
      · simp [hfail r, hmr', hrec.1]
      · simp only [hfail r, Bool.false_eq_true, if_false, hmr', List.countP_append,
          attemptEvents_countP_attempt, hrec.2]
        simp [isUploadAttempt]
        omega
    · have hmr' : m ≤ r := by simpa using hmr
      have hsub : m - r + 1 = 1 := by omega
      simp [hfail r, hmr', attemptEvents_countP_attempt, hsub]

/-- C1.  For every valid file source and every `max_retries = m ≥ 1`
(`m = 2` in the spec's scenario), if the upload+commit pair raises on every
attempt then `upload_file` escalates to the fatal "max retries exceeded"
error after exactly `m` upload+commit attempt pairs, the slot deletion runs
exactly once during cleanup, and — for a remote source, whatever the attempt
outcomes — the temporary downloaded file is removed exactly once. -/
theorem upload_file_exhaustion (source : FileSource) (uploadOk commitOk : Nat → Bool)
    (m : Nat) (hvalid : source.isLocalFile = true ∨ source.isRemoteUrl = true)
    (hfail : ∀ n, attemptSuccess uploadOk commitOk n = false) (hm : 1 ≤ m) :
    (upload_file source uploadOk commitOk m).2 = .maxRetriesExceeded ∧
    (upload_file source uploadOk commitOk m).1.countP isUploadAttempt = m ∧
    (upload_file source uploadOk commitOk m).1.count .deleteSlot = 1 ∧
    (upload_file source uploadOk commitOk m).1.count .removeTemp
      = (if source.isRemoteUrl then 1 else 0) ∧
    (∀ u c : Nat → Bool, source.isRemoteUrl = true →
      (upload_file source u c m).1.count .removeTemp = 1) := by
  have hnotboth : (!source.isLocalFile && !source.isRemoteUrl) = false := by
    rcases hvalid with h | h <;> simp [h]
  have hloop := uploadLoop_allFail uploadOk commitOk m hfail (m - 1) 1 (by omega)
  have hclean := uploadLoop_count_cleanup uploadOk commitOk m (m - 1) 1 (by omega)
  rcases hL : uploadLoop uploadOk commitOk m 1 with ⟨evs, b⟩
  rw [hL] at hloop hclean
  obtain ⟨hb, hcount⟩ := hloop
  obtain ⟨hd, hrt, hrf⟩ := hclean
  simp only at hb hcount hd hrt hrf
  subst hb
  refine ⟨?_, ?_, ?_, ?_, ?_⟩
  · simp [upload_file, hnotboth, hL]
  · simp only [upload_file, hnotboth, Bool.false_eq_true, if_false, hL]
    rcases hrem : source.isRemoteUrl with _ | _ <;>
      simp [hrem, List.countP_append, List.countP_cons, isUploadAttempt, hcount] <;>
      omega
  · simp only [upload_file, hnotboth, Bool.false_eq_true, if_false, hL]
    rcases hrem : source.isRemoteUrl with _ | _ <;>
      simp [hrem, List.count_append, List.count_cons, hd]
  · simp only [upload_file, hnotboth, Bool.false_eq_true, if_false, hL]
    rcases hrem : source.isRemoteUrl with _ | _ <;>
      simp [hrem, List.count_append, List.count_cons, hrt]
  · intro u c hremote
    have hclean' := uploadLoop_count_cleanup u c m (m - 1) 1 (by omega)
    rcases hL2 : uploadLoop u c m 1 with ⟨evs2, b2⟩
    rw [hL2] at hclean'
    have hrt2 : evs2.count .removeTemp = 0 := hclean'.2.1
    simp only [upload_file, hnotboth, Bool.false_eq_true, if_false, hL2, hremote]
    rcases b2 with _ | _ <;>
      simp [List.count_append, List.count_cons, hrt2]

/-- Witness for C1: a local file, an always-failing upload, `max_retries = 2`. -/
theorem upload_file_exhaustion_witness :
    (upload_file ⟨true, false⟩ (fun _ => false) (fun _ => false) 2).2
      = .maxRetriesExceeded ∧
    (upload_file ⟨true, false⟩ (fun _ => false) (fun _ => false) 2).1.countP
      isUploadAttempt = 2 ∧
    (upload_file ⟨true, false⟩ (fun _ => false) (fun _ => false) 2).1.count
      .deleteSlot = 1 ∧
    (upload_file ⟨true, false⟩ (fun _ => false) (fun _ => false) 2).1.count
      .removeTemp = (if (false : Bool) then 1 else 0) ∧
    (∀ u c : Nat → Bool, (false : Bool) = true →
      (upload_file ⟨true, false⟩ u c 2).1.count .removeTemp = 1) :=
  upload_file_exhaustion ⟨true, false⟩ (fun _ => false) (fun _ => false) 2
    (Or.inl rfl) (fun _ => rfl) (by omega)

/-- C2.  For every valid source, if the upload+commit pair fails on attempts
1 and 2 and succeeds on attempt 3, then with `max_retries = 5` the workflow
succeeds, performs exactly 3 upload+commit attempt pairs, refreshes the
draft's file listing once, and never deletes the slot. -/
theorem upload_file_retry_success (source : FileSource) (uploadOk commitOk : Nat → Bool)
    (hvalid : source.isLocalFile = true ∨ source.isRemoteUrl = true)
    (h1 : attemptSuccess uploadOk commitOk 1 = false)
    (h2 : attemptSuccess uploadOk commitOk 2 = false)
    (h3 : attemptSuccess uploadOk commitOk 3 = true) :
    (upload_file source uploadOk commitOk 5).2 = .ok ∧
    (upload_file source uploadOk commitOk 5).1.countP isUploadAttempt = 3 ∧
    (upload_file source uploadOk commitOk 5).1.count .refreshFiles = 1 ∧
    (upload_file source uploadOk commitOk 5).1.count .deleteSlot = 0 := by
  have hnotboth : (!source.isLocalFile && !source.isRemoteUrl) = false := by
    rcases hvalid with h | h <;> simp [h]
  have hl3 : uploadLoop uploadOk commitOk 5 3 = (attemptEvents uploadOk commitOk 3, true) := by
    unfold uploadLoop
    simp [h3]
  have hl2 : uploadLoop uploadOk commitOk 5 2
      = (attemptEvents uploadOk commitOk 2 ++ [.sleepRetry 2] ++
          attemptEvents uploadOk commitOk 3, true) := by
    unfold uploadLoop
    simp [h2, hl3]
  have hl1 : uploadLoop uploadOk commitOk 5 1
      = (attemptEvents uploadOk commitOk 1 ++ [.sleepRetry 1] ++
          (attemptEvents uploadOk commitOk 2 ++ [.sleepRetry 2] ++
            attemptEvents uploadOk commitOk 3), true) := by
    unfold uploadLoop
    simp [h1, hl2]
  refine ⟨?_, ?_, ?_, ?_⟩
  · simp [upload_file, hnotboth, hl1]
  · simp only [upload_file, hnotboth, Bool.false_eq_true, if_false, hl1]
    rcases hrem : source.isRemoteUrl with _ | _ <;>
      simp [hrem, List.countP_append, List.countP_cons, isUploadAttempt,
        attemptEvents_countP_attempt]
  · simp only [upload_file, hnotboth, Bool.false_eq_true, if_false, hl1]
    rcases hrem : source.isRemoteUrl with _ | _ <;>
      simp [hrem, List.count_append, List.count_cons, attemptEvents_count_refresh]
  · simp only [upload_file, hnotboth, Bool.false_eq_true, if_false, hl1]
    rcases hrem : source.isRemoteUrl with _ | _ <;>
      simp [hrem, List.count_append, List.count_cons, attemptEvents_count_delete]

/-- Witness for C2: a local file, a pair that fails twice then succeeds. -/
theorem upload_file_retry_success_witness :
    (upload_file ⟨true, false⟩ (fun n => decide (3 ≤ n)) (fun _ => true) 5).2 = .ok ∧
    (upload_file ⟨true, false⟩ (fun n => decide (3 ≤ n)) (fun _ => true) 5).1.countP
      isUploadAttempt = 3 ∧
    (upload_file ⟨true, false⟩ (fun n => decide (3 ≤ n)) (fun _ => true) 5).1.count
      .refreshFiles = 1 ∧
    (upload_file ⟨true, false⟩ (fun n => decide (3 ≤ n)) (fun _ => true) 5).1.count
      .deleteSlot = 0 :=
  upload_file_retry_success ⟨true, false⟩ (fun n => decide (3 ≤ n)) (fun _ => true)
    (Or.inl rfl) (by decide) (by decide) (by decide)

/-! ### `_PagedData` (src/zen/api.py, lines 414-475)

The generator returned by `iter_pagination` is modelled by the list of the
yields it still has to produce: `next()` uncoses it, and `StopIteration` on
an exhausted generator is `none`.  Fetching happens between yields in
Python; the yield sequence is the same. -/

structure PagedData (α υ : Type) where
  startPage : Page α υ
  pagesIter : Option (List (Page α υ))
  page : Option (Page α υ)
deriving Repr, DecidableEq

/-- `_PagedData.first_page`: build a fresh pagination iterator over the
start page with `limit=1` and advance it once. -/
def PagedData_first_page (fetch : υ → Page α υ) (fuel : Nat) (pd : PagedData α υ) :
    Option (PagedData α υ) :=
  match (iter_pagination fetch pd.startPage (some 1) fuel).1 with
  | [] => none
  | p :: rest => some { pd with pagesIter := some rest, page := some p }

/-- `_PagedData.next_page`: reuse the existing iterator (building one with
`limit=1` only if there is none yet) and advance it; an exhausted iterator
raises `StopIteration` (`none`). -/
def PagedData_next_page (fetch : υ → Page α υ) (fuel : Nat) (pd : PagedData α υ) :
    Option (PagedData α υ) :=
  let ys := match pd.pagesIter with
    | none => (iter_pagination fetch pd.startPage (some 1) fuel).1
    | some l => l
  match ys with
  | [] => none
  | p :: rest => some { pd with pagesIter := some rest, page := some p }

/-- C10.  Both `first_page` and `next_page` build their iterator with
`limit = 1`, so after `first_page` a `_PagedData` advances at most one more
page: with a start page that links to a second page which itself still
links onward, `first_page` succeeds (current page = start), one `next_page`
succeeds (current page = page 2), and the second consecutive `next_page`
call fails with `StopIteration` even though page 2 carries `links.next`. -/
theorem paged_data_limit_one (fetch : υ → Page α υ) (start : Page α υ)
    (u2 u3 : υ) (fuel : Nat) (hnext : start.next = some u2)
    (hnext2 : (fetch u2).next = some u3) (hfuel : 1 ≤ fuel) :
    PagedData_first_page fetch fuel ⟨start, none, none⟩
      = some ⟨start, some [fetch u2], some start⟩ ∧
    PagedData_next_page fetch fuel ⟨start, some [fetch u2], some start⟩
      = some ⟨start, some [], some (fetch u2)⟩ ∧
    PagedData_next_page fetch fuel ⟨start, some [], some (fetch u2)⟩ = none := by
  obtain ⟨f, rfl⟩ : ∃ f, fuel = f + 1 := ⟨fuel - 1, by omega⟩
  have hyields : (iter_pagination fetch start (some 1) (f + 1)).1
      = [start, fetch u2] := by
    unfold iter_pagination
    simp only [iterPaginationLoop, hnext, limitOk]
    rw [iterPaginationLoop_limit_reached fetch (fetch u2) 1 1 f (by omega)]
    simp
  refine ⟨?_, rfl, rfl⟩
  unfold PagedData_first_page
  simp only [hyields]

/-- A concrete endless chain for the C10 witness: page `u` links to `u+1`. -/
def endlessPg (u : Nat) : Page Nat Nat :=
  { items := [u], total := 9, next := some (u + 1) }

/-- Witness for C10 on the endless chain starting at page 1. -/
theorem paged_data_limit_one_witness :
    PagedData_first_page endlessPg 1 ⟨endlessPg 1, none, none⟩
      = some ⟨endlessPg 1, some [endlessPg 2], some (endlessPg 1)⟩ ∧
    PagedData_next_page endlessPg 1 ⟨endlessPg 1, some [endlessPg 2], some (endlessPg 1)⟩
      = some ⟨endlessPg 1, some [], some (endlessPg 2)⟩ ∧
    PagedData_next_page endlessPg 1 ⟨endlessPg 1, some [], some (endlessPg 2)⟩ = none :=
  paged_data_limit_one endlessPg (endlessPg 1) 2 3 1 rfl rfl (by omega)

/-! ### Draft persistence (src/zen/draft.py, lines 64-91)

`load_json`/`save_json` live in the missing module zen/utils.py; modelled
from the spec (§6: an optional JSON file holding the draft snapshot), the
file system is the file's parsed content, or absent.  The server is the
external collaborator: `get_draft` (GET `/api/records/{id}/draft`) returns
the fresh server data for an id, `create_draft` (POST `/api/records`)
returns the server's new draft data.  `δ` is the type of parsed JSON
snapshots. -/

/-- The state of the local JSON file as `load_json` sees it. -/
inductive DiskFile (δ : Type)
  | absent
  | notDict
  | dictNoId (snapshot : δ)
  | dictWithId (id : String) (snapshot : δ)

/-- A Python value as relevant here: `create_draft`/`get_draft` return the
parsed-JSON dict (`response.json()`), while only `draft._BaseRecord`
instances carry a `to_json` method. -/
inductive PyObject (δ : Type)
  | jsonDict (data : δ)
  | baseRecord (data : δ)

/-- Attribute lookup for `to_json`: present only on `_BaseRecord`. -/
def hasToJsonMethod : PyObject δ → Bool
  | .jsonDict _ => false
  | .baseRecord _ => true

def PyObject.data : PyObject δ → δ
  | .jsonDict d => d
  | .baseRecord d => d

inductive DraftLoadResult (δ : Type)
  | ok (data : δ)
  | typeError
  | valueError
  | fileNotFound
  | attributeError
deriving DecidableEq

/-- `load_draft`: read the file (absent re-raises `FileNotFoundError`),
require a dict with an `id` entry, and re-fetch that id from the server. -/
def load_draft (disk : DiskFile δ) (getDraft : String → δ) : DraftLoadResult δ :=
  match disk with
  | .absent => .fileNotFound
  | .notDict => .typeError
  | .dictNoId _ => .valueError
  | .dictWithId id _ => .ok (getDraft id)

/-- `load_or_create_draft`: on `FileNotFoundError` create a draft on the
server and call `draft.to_json(filename)` on the returned value — which is
`response.json()`, a plain dict without a `to_json` method.  The second
component is the content written to the file (`none` = nothing written). -/
def load_or_create_draft (disk : DiskFile δ) (getDraft : String → δ)
    (createdDraft : δ) : DraftLoadResult δ × Option δ :=
  match load_draft disk getDraft with
  | .fileNotFound =>
    let draft : PyObject δ := .jsonDict createdDraft
    if hasToJsonMethod draft then (.ok draft.data, some draft.data)
    else (.attributeError, none)
  | r => (r, none)

/-- C5.  What the code does: when the file is present with an `id`, only the
`id` is used and the result is the fresh server fetch for that id (never the
on-disk snapshot — the returned data equals `getDraft id` whatever the
snapshot holds); but when the file is absent, `create_draft` posts the new
draft and returns a plain dict, so `draft.to_json(filename)` raises
`AttributeError` and no file is ever written, contradicting the claim that
the snapshot is written. -/
theorem load_or_create_draft_eval (δ : Type) (getDraft : String → δ)
    (created : δ) :
    (∀ (id : String) (snap : δ),
      load_or_create_draft (.dictWithId id snap) getDraft created
        = (.ok (getDraft id), none)) ∧
    load_or_create_draft (.absent : DiskFile δ) getDraft created
      = (.attributeError, none) := by
  exact ⟨fun id snap => rfl, rfl⟩

/-! ### The two `Draft.update` bodies
(src/zen/draft.py, lines 233-254 and src/zen/record.py, lines 303-317)

A JSON object's top-level fields are modelled as an association list in
insertion order; `lookupField` is `self._data[field]` (`none` = `KeyError`). -/

/-- The top-level fields of a record's JSON snapshot, in order. -/
abbrev Snapshot (α : Type) : Type := List (String × α)

def lookupField (data : Snapshot α) (k : String) : Option α :=
  (data.find? (fun p => p.1 = k)).map (·.2)

def body_fields : List String := ["access", "files", "metadata"]

/-- The dict comprehension `{field: self._data[field] for field in fields}`:
one pair per field in order; a missing field is a `KeyError` (`none`). -/
def fieldsBody (data : Snapshot α) : List String → Option (Snapshot α)
  | [] => some []
  | f :: fs =>
    match lookupField data f, fieldsBody data fs with
    | some v, some b => some ((f, v) :: b)
    | _, _ => none

/-- draft.py `Draft.update`: `body = {field: self._data[field] for field in
body_fields}` with `body_fields = ['access', 'files', 'metadata']` plus the
caller's `custom_fields`; the body is PUT to `/api/records/{id}/draft`. -/
def draft_update_body (data : Snapshot α) (customFields : Option (List String)) :
    Option (Snapshot α) :=
  fieldsBody data (body_fields ++ customFields.getD [])

/-- record.py `Draft.update`: `self.api.http_put(url, json=self.data)` — the
PUT body is the entire snapshot. -/
def record_update_body (data : Snapshot α) : Snapshot α := data

/-- Helper: if every requested field is present, the dict comprehension
yields exactly those fields, in order, with the looked-up values. -/
theorem fieldsBody_spec (data : Snapshot α) :
    ∀ fields : List String, (∀ f ∈ fields, (lookupField data f).isSome) →
      ∃ b : Snapshot α, fieldsBody data fields = some b ∧
        b.map Prod.fst = fields ∧
        ∀ p ∈ b, lookupField data p.1 = some p.2 := by
  intro fields
  induction fields with
  | nil => exact fun _ => ⟨[], rfl, rfl, fun p hp => absurd hp (List.not_mem_nil p)⟩
  | cons f fs ih =>
    intro hall
    obtain ⟨v, hv⟩ := Option.isSome_iff_exists.mp (hall f (List.mem_cons_self f fs))
    obtain ⟨b, hb, hkeys, hvals⟩ := ih (fun g hg => hall g (List.mem_cons_of_mem f hg))
    refine ⟨(f, v) :: b, ?_, ?_, ?_⟩
    · simp [fieldsBody, hv, hb]
    · simp [hkeys]
    · intro p hp
      rcases List.mem_cons.mp hp with rfl | hp'
      · exact hv
      · exact hvals p hp'

/-- C8 (amended).  draft.py's `Draft.update` transmits exactly the top-level
fields `access`, `files`, `metadata` plus the caller's extra fields, in that
order, each with its value from the local snapshot; record.py's
`Draft.update`, by contrast, transmits the draft's entire snapshot. -/
theorem draft_update_body_fields (data : Snapshot α) (custom : Option (List String))
    (h : ∀ f ∈ body_fields ++ custom.getD [], (lookupField data f).isSome) :
    (draft_update_body data custom).isSome ∧
    ((draft_update_body data custom).getD []).map Prod.fst
      = body_fields ++ custom.getD [] ∧
    (∀ p ∈ (draft_update_body data custom).getD [],
      lookupField data p.1 = some p.2) ∧
    record_update_body data = data := by
  obtain ⟨b, hb, hkeys, hvals⟩ := fieldsBody_spec data (body_fields ++ custom.getD []) h
  unfold draft_update_body
  simp only [hb]
  exact ⟨rfl, hkeys, hvals, rfl⟩

/-- An example snapshot carrying the extra top-level fields `id` and `links`
alongside `access`, `files` and `metadata` (values as numeric stand-ins). -/
def exampleSnapshot : Snapshot Nat :=
  [("id", 1), ("links", 2), ("access", 3), ("files", 4), ("metadata", 5)]

/-- Witness for C8's amended theorem: on `exampleSnapshot` with one custom
field `links`, the draft.py body holds exactly
`access`, `files`, `metadata`, `links`. -/
theorem draft_update_body_fields_witness :
    (draft_update_body exampleSnapshot (some ["links"])).isSome ∧
    ((draft_update_body exampleSnapshot (some ["links"])).getD []).map Prod.fst
      = ["access", "files", "metadata", "links"] := by
  have h := draft_update_body_fields exampleSnapshot (some ["links"]) (by decide)
  exact ⟨h.1, h.2.1⟩

/-- Counterexample for C8 as stated: record.py's `Draft.update` PUTs the
whole snapshot, so with no caller-specified extra fields the transmitted
body contains the top-level field `id`, which is none of `access`, `files`,
`metadata` — other top-level fields of the snapshot ARE transmitted. -/
theorem record_update_transmits_extra_fields :
    record_update_body exampleSnapshot = exampleSnapshot ∧
    "id" ∈ (record_update_body exampleSnapshot).map Prod.fst ∧
    "id" ∉ body_fields := by
  refine ⟨rfl, by decide, by decide⟩

/-! ### C6: validation precedes all network traffic -/

/-- C6.  Invalid `status` values make `Depositions.list` raise with zero
HTTP requests; with a valid `status`, invalid `sort` values do the same;
every value of the two allow-lists passes validation; and a `filename` that
is neither an existing local file nor an accepted-scheme URL makes
`Draft.upload_file` raise `ValueError` with an empty event trace — before
any server interaction. -/
theorem validation_before_network (α : Type) :
    (∀ (server : Nat → List α) (fuel : Nat) (s : String), s ∉ status_options →
      Depositions_list (some s) none server fuel = (0, .invalidStatus)) ∧
    (∀ (server : Nat → List α) (fuel : Nat) (st : Option String) (so : String),
      validOption st status_options = true → so ∉ sort_options →
      Depositions_list st (some so) server fuel = (0, .invalidSort)) ∧
    (∀ s ∈ status_options, ∀ so ∈ sort_options, ∀ (server : Nat → List α) (fuel : Nat),
      (Depositions_list (some s) (some so) server fuel).2 ≠ .invalidStatus ∧
      (Depositions_list (some s) (some so) server fuel).2 ≠ .invalidSort) ∧
    (∀ (uploadOk commitOk : Nat → Bool) (m : Nat) (source : FileSource),
      source.isLocalFile = false → source.isRemoteUrl = false →
      upload_file source uploadOk commitOk m = ([], .valueError)) := by
  refine ⟨?_, ?_, ?_, ?_⟩
  · intro server fuel s hs
    have hv : validOption (some s) status_options = false := by
      simp only [validOption, status_options] at hs ⊢
      simp_all
    simp [Depositions_list, hv]
  · intro server fuel st so hst hso
    have hv : validOption (some so) sort_options = false := by
      simp only [validOption, sort_options] at hso ⊢
      simp_all
    simp [Depositions_list, hst, hv]
  · intro s hs so hso server fuel
    have hv1 : validOption (some s) status_options = true := by
      simp only [validOption, status_options] at hs ⊢
      simp_all
    have hv2 : validOption (some so) sort_options = true := by
      simp only [validOption, sort_options] at hso ⊢
      simp_all
    unfold Depositions_list
    rw [hv1, hv2]
    rcases hres : (depositionsListLoop server (server 1) 2 fuel).2 with _ | items <;>
      simp [hres]
  · intro uploadOk commitOk m source h1 h2
    simp [upload_file, h1, h2]

/-- Witness for C6: a bad status, a bad sort, the valid pair
("published", "bestmatch"), and an invalid upload source. -/
theorem validation_before_network_witness :
    Depositions_list (some "bogus") none (fun _ => ([] : List Nat)) 3
      = (0, .invalidStatus) ∧
    Depositions_list none (some "upwards") (fun _ => ([] : List Nat)) 3
      = (0, .invalidSort) ∧
    (Depositions_list (some "published") (some "bestmatch")
      (fun _ => ([] : List Nat)) 3).2 ≠ .invalidStatus ∧
    upload_file ⟨false, false⟩ (fun _ => true) (fun _ => true) 15
      = ([], .valueError) := by
  have h := validation_before_network Nat
  refine ⟨h.1 _ 3 "bogus" (by decide), h.2.1 _ 3 none "upwards" rfl (by decide),
    (h.2.2.1 "published" (by decide) "bestmatch" (by decide) _ 3).1,
    h.2.2.2 _ _ 15 ⟨false, false⟩ rfl rfl⟩

end Zen
